import Mathlib

/-!
Shallow embedding of the pr-review-server reconciliation core.

The store (an SQLite table `prs`) is modelled as a `List PRRow`; each SQL
statement of `src/db/db.go` becomes a pure function over that list.  Time
instants are integer nanoseconds (`Int` for wall-clock comparisons, `Nat`
for the monotonic ticker arithmetic), matching Go's `time.Time`/`time.Duration`
representation.  Nullable columns are `Option`; TEXT columns scanned into Go
strings keep the Go convention that NULL scans to the empty string
(`review_html_path`).  `notes` is a byte string (Go `len`/slicing are
byte-based), modelled as `List Nat`.
-/

/-- A row of the `prs` table, after `scanPRRow` (src/db/db.go).  The surrogate
`id` column is not modelled; rows are identified by the unique key
`(repo_owner, repo_name, pr_number)`. -/
structure PRRow where
  repoOwner : String
  repoName : String
  prNumber : Nat
  lastCommitSHA : String
  lastReviewedAt : Option Int
  reviewHTMLPath : String
  status : String
  generatingSince : Option Int
  isMine : Bool
  title : String
  author : String
  approvalCount : Nat
  myReviewStatus : String
  createdAt : Option Int
  draft : Bool
  notes : List Nat
  ciState : String
  ciFailedChecks : String
deriving DecidableEq, Repr

/-- The WHERE clause `repo_owner = ? AND repo_name = ? AND pr_number = ?`
shared by the single-row statements of src/db/db.go. -/
def PRRow.matchesId (r : PRRow) (owner repo : String) (n : Nat) : Bool :=
  r.repoOwner == owner && r.repoName == repo && r.prNumber == n

/-- `GetPR` (src/db/db.go line 161): select the row with the given identity,
`none` when no row matches (`sql.ErrNoRows`). -/
def getPR (store : List PRRow) (owner repo : String) (n : Nat) : Option PRRow :=
  store.find? fun r => r.matchesId owner repo n

/-- `UpdatePRStatus` (src/db/db.go line 255): `UPDATE prs SET status = ?` for
the given identity. -/
def updatePRStatus (store : List PRRow) (owner repo : String) (n : Nat)
    (status : String) : List PRRow :=
  store.map fun r =>
    if r.matchesId owner repo n then { r with status := status } else r

/-- `ResetPRToOutdated` (src/db/db.go line 263): atomically set
`status='pending'`, `last_commit_sha=?`, and NULL out `review_html_path`,
`last_reviewed_at`, `generating_since` for the given identity.  A NULL
`review_html_path` scans back to the empty string. -/
def resetPRToOutdated (store : List PRRow) (owner repo : String) (n : Nat)
    (newCommitSHA : String) : List PRRow :=
  store.map fun r =>
    if r.matchesId owner repo n then
      { r with status := "pending", lastCommitSHA := newCommitSHA,
               reviewHTMLPath := "", lastReviewedAt := none,
               generatingSince := none }
    else r

/-- Nanoseconds in one minute (`time.Minute`). -/
def nsPerMinute : Int := 60000000000

/-- Nanoseconds in one second (`time.Second`). -/
def nsPerSecond : Nat := 1000000000

/-- The WHERE clause of `ResetStaleGeneratingPRs` (src/db/db.go line 347):
`status = 'generating' AND (generating_since IS NULL OR generating_since < ?)`
with `? = now - timeoutMinutes`. -/
def staleGenerating (cutoff : Int) (r : PRRow) : Bool :=
  r.status == "generating" &&
    (match r.generatingSince with
     | none => true
     | some t => decide (t < cutoff))

/-- `ResetStaleGeneratingPRs` (src/db/db.go line 347): transition stale
GENERATING rows to PENDING (clearing `generating_since`) and return the
number of rows affected. -/
def resetStaleGeneratingPRs (store : List PRRow) (now timeoutMinutes : Int) :
    List PRRow × Nat :=
  let cutoff := now - timeoutMinutes * nsPerMinute
  (store.map fun r =>
     if staleGenerating cutoff r then
       { r with status := "pending", generatingSince := none }
     else r,
   (store.filter fun r => staleGenerating cutoff r).length)

/-- The WHERE clause of `ResetErrorPRs` (src/db/db.go line 362):
`status = 'error' AND (last_reviewed_at IS NULL OR last_reviewed_at < ?)`
with `? = now - maxAgeMinutes`. -/
def errorExpired (cutoff : Int) (r : PRRow) : Bool :=
  r.status == "error" &&
    (match r.lastReviewedAt with
     | none => true
     | some t => decide (t < cutoff))

/-- `ResetErrorPRs` (src/db/db.go line 362): transition expired ERROR rows to
PENDING and return the number of rows affected.  Only the status column is
written. -/
def resetErrorPRs (store : List PRRow) (now maxAgeMinutes : Int) :
    List PRRow × Nat :=
  let cutoff := now - maxAgeMinutes * nsPerMinute
  (store.map fun r =>
     if errorExpired cutoff r then { r with status := "pending" } else r,
   (store.filter fun r => errorExpired cutoff r).length)

/-- `UpdatePRNotes` (src/db/db.go line 437): truncate the input to 15 bytes as
a defensive measure, then `UPDATE prs SET notes = ?` for the given identity. -/
def updatePRNotes (store : List PRRow) (owner repo : String) (n : Nat)
    (notes : List Nat) : List PRRow :=
  let notes2 := if notes.length > 15 then notes.take 15 else notes
  store.map fun r =>
    if r.matchesId owner repo n then { r with notes := notes2 } else r

/-- Modelled from the spec: the HTTP notes-mutation handler
(`POST|PATCH /api/prs/notes`, spec section 4.5 and 6) is not present under
`src/` — only its front-end caller and the store primitive `UpdatePRNotes`
are.  Per the spec it "rejects inputs longer than 15 characters" with a
client-error response (no state change) and otherwise updates only the notes
column through the store primitive. -/
def handleUpdateNotes (store : List PRRow) (owner repo : String) (n : Nat)
    (notes : List Nat) : Except String (List PRRow) :=
  if notes.length > 15 then Except.error "notes must be 15 characters or less"
  else Except.ok (updatePRNotes store owner repo n notes)

/-- The `CASE status` tie-break of the `GetAllPRs` ORDER BY clause
(src/db/db.go lines 309-314). -/
def statusRank (status : String) : Nat :=
  if status == "generating" then 1
  else if status == "pending" then 2
  else if status == "completed" then 3
  else 4

/-- Sort key of the `GetAllPRs` ORDER BY clause (src/db/db.go lines 306-314):
`is_mine ASC` (stored 0/1), `created_at DESC NULLS LAST` (encoded as a
null-rank followed by the negated timestamp), then the status CASE rank. -/
def rowKey (r : PRRow) : Nat × Nat × Int × Nat :=
  (if r.isMine then 1 else 0,
   match r.createdAt with
   | none => 1
   | some _ => 0,
   match r.createdAt with
   | none => 0
   | some t => -t,
   statusRank r.status)

/-- Lexicographic comparison of the four-component sort keys. -/
def lex4 (a b : Nat × Nat × Int × Nat) : Prop :=
  a.1 < b.1 ∨ (a.1 = b.1 ∧
    (a.2.1 < b.2.1 ∨ (a.2.1 = b.2.1 ∧
      (a.2.2.1 < b.2.2.1 ∨ (a.2.2.1 = b.2.2.1 ∧ a.2.2.2 ≤ b.2.2.2)))))

instance lex4Decidable (a b : Nat × Nat × Int × Nat) : Decidable (lex4 a b) := by
  unfold lex4; exact inferInstance

/-- `a` may be emitted no later than `b` by the `GetAllPRs` ORDER BY clause. -/
def rowLE (a b : PRRow) : Prop := lex4 (rowKey a) (rowKey b)

instance rowLEDecidable : DecidableRel rowLE := fun a b =>
  inferInstanceAs (Decidable (lex4 (rowKey a) (rowKey b)))

instance rowLETotal : IsTotal PRRow rowLE := by
  constructor
  intro a b
  unfold rowLE lex4
  omega

instance rowLETrans : IsTrans PRRow rowLE := by
  constructor
  intro a b c
  unfold rowLE lex4
  omega

/-- `GetAllPRs` (src/db/db.go line 302): all rows, ordered by the ORDER BY
clause.  The SQL sort is modelled as a stable sort of the stored rows by the
comparison `rowLE`. -/
def getAllPRs (store : List PRRow) : List PRRow :=
  store.insertionSort rowLE

/-- The status tie-break order as the spec words it: GENERATING, PENDING,
COMPLETED, other. -/
def specStatusPos (status : String) : Nat :=
  if status = "generating" then 0
  else if status = "pending" then 1
  else if status = "completed" then 2
  else 3

/-- The `list_all` ordering contract as the spec words it: `a` may appear
(weakly) before `b` iff `is_mine` is false-first, then `created_at` descending
with nulls last, then the status tie-break. -/
def specListAllLE (a b : PRRow) : Prop :=
  (a.isMine = false ∧ b.isMine = true) ∨
  (a.isMine = b.isMine ∧
    (((∃ x y, a.createdAt = some x ∧ b.createdAt = some y ∧ y < x) ∨
      (a.createdAt ≠ none ∧ b.createdAt = none)) ∨
     ((a.createdAt = none ∧ b.createdAt = none) ∨
         (∃ x, a.createdAt = some x ∧ b.createdAt = some x)) ∧
       specStatusPos a.status ≤ specStatusPos b.status))

/-- The review-generator task parameters captured at spawn time
(`github.PullRequest` as used by `generateReviewsBatch`). -/
structure GenTask where
  owner : String
  repo : String
  number : Nat
  commitSHA : String
  title : String
  author : String
  createdAt : Int
  draft : Bool
deriving DecidableEq, Repr

/-- Artifact file name `<owner>_<repo>_<number>.html`
(src/poller/poller.go line 1060). -/
def artifactFilename (t : GenTask) : String :=
  t.owner ++ "_" ++ t.repo ++ "_" ++ toString t.number ++ ".html"

/-- Modelled from the spec: the `UpsertPR` store primitive as invoked by the
poller with thirteen positional arguments (src/poller/poller.go lines 70,
118, 705).  Its body is not under `src/` — src/db/db.go holds a struct-based
variant of the same primitive.  Modelled after that variant's
INSERT-or-UPDATE statement restricted to the columns the thirteen arguments
cover: on conflict it overwrites `last_commit_sha`, `review_html_path`,
`status`, `is_mine`, `title`, `author`, `approval_count`,
`my_review_status`, `draft`, clears `generating_since`, and (mirroring the
variant's nil-pointer preserve of `created_at`) preserves `created_at` when
the Go `time.Time` argument is the zero value; columns outside the argument
list (`notes`, `ci_state`, `ci_failed_checks`, `last_reviewed_at`) are
preserved on update and defaulted on insert. -/
def upsertPR (store : List PRRow) (owner repo : String) (n : Nat)
    (sha htmlPath status title author : String) (isMine : Bool)
    (approval : Nat) (myReview : String) (createdAt : Int) (draft : Bool) :
    List PRRow :=
  if (getPR store owner repo n).isSome then
    store.map fun r =>
      if r.matchesId owner repo n then
        { r with lastCommitSHA := sha, reviewHTMLPath := htmlPath,
                 status := status, generatingSince := none, isMine := isMine,
                 title := title, author := author, approvalCount := approval,
                 myReviewStatus := myReview,
                 createdAt := if createdAt = 0 then r.createdAt else some createdAt,
                 draft := draft }
      else r
  else
    store ++ [{ repoOwner := owner, repoName := repo, prNumber := n,
                lastCommitSHA := sha, lastReviewedAt := none,
                reviewHTMLPath := htmlPath, status := status,
                generatingSince := none, isMine := isMine, title := title,
                author := author, approvalCount := approval,
                myReviewStatus := myReview,
                createdAt := if createdAt = 0 then none else some createdAt,
                draft := draft, notes := [], ciState := "unknown",
                ciFailedChecks := "[]" }]

/-- `upsertPRPreservingReviewData` (src/poller/poller.go line 55): read the
existing row and pass its `approval_count` and `my_review_status` (defaulting
to 0 and "") through to `UpsertPR`. -/
def upsertPRPreservingReviewData (store : List PRRow) (owner repo : String)
    (n : Nat) (sha htmlPath status title author : String) (isMine : Bool)
    (createdAt : Int) (draft : Bool) : List PRRow :=
  let approval := match getPR store owner repo n with
    | some r => r.approvalCount
    | none => 0
  let myReview := match getPR store owner repo n with
    | some r => r.myReviewStatus
    | none => ""
  upsertPR store owner repo n sha htmlPath status title author isMine
    approval myReview createdAt draft

/-- Joint state threaded through the completion handling of one generator
task: the store and whether the task's artifact file currently exists. -/
structure ExecState where
  store : List PRRow
  artifactExists : Bool
deriving DecidableEq, Repr

/-- Completion handling of one task inside `generateReviewsBatch`
(src/poller/poller.go lines 1097-1158), entered after `cmd.Wait()` returns:
on failure, set ERROR unless the store shows the row already PENDING with a
different `head_sha`; on success, set ERROR if the file is missing, otherwise
re-read the store and either discard the stale artifact (commit changed) or
mark COMPLETED.  `exitOk` is whether `cmd.Wait()` returned nil; store reads
and writes are modelled as reliable. -/
def generateReviewsBatchStep (t : GenTask) (isMine : Bool) (exitOk : Bool)
    (s : ExecState) : ExecState :=
  if !exitOk then
    match getPR s.store t.owner t.repo t.number with
    | some cur =>
        if cur.status == "pending" && !(cur.lastCommitSHA == t.commitSHA) then
          s
        else
          { s with store := updatePRStatus s.store t.owner t.repo t.number "error" }
    | none =>
        { s with store := updatePRStatus s.store t.owner t.repo t.number "error" }
  else if !s.artifactExists then
    { s with store := updatePRStatus s.store t.owner t.repo t.number "error" }
  else
    match getPR s.store t.owner t.repo t.number with
    | some cur =>
        if !(cur.lastCommitSHA == t.commitSHA) then
          { s with artifactExists := false }
        else
          let st2 := upsertPRPreservingReviewData s.store t.owner t.repo
            t.number t.commitSHA (artifactFilename t) "completed" t.title
            t.author isMine t.createdAt t.draft
          { s with store := st2 }
    | none =>
        let st2 := upsertPRPreservingReviewData s.store t.owner t.repo
          t.number t.commitSHA (artifactFilename t) "completed" t.title
          t.author isMine t.createdAt t.draft
        { s with store := st2 }

/-- Per-task half of the post-batch check in `processPRBatch`
(src/poller/poller.go lines 913-929), run after `generateReviewsBatch`
returns: if the task's file exists mark COMPLETED, otherwise mark ERROR. -/
def processPRBatchCheckStep (t : GenTask) (isMine : Bool) (s : ExecState) :
    ExecState :=
  if s.artifactExists then
    let st2 := upsertPRPreservingReviewData s.store t.owner t.repo
      t.number t.commitSHA (artifactFilename t) "completed" t.title
      t.author isMine t.createdAt t.draft
    { s with store := st2 }
  else
    { s with store := updatePRStatus s.store t.owner t.repo t.number "error" }

/-- End-to-end completion handling of one generator task within a pass: the
per-task body of `generateReviewsBatch` followed by the per-task file check
of `processPRBatch` (which runs over the same `prsToReview` slice once the
batch returns). -/
def processTaskResult (t : GenTask) (isMine : Bool) (exitOk : Bool)
    (s : ExecState) : ExecState :=
  processPRBatchCheckStep t isMine (generateReviewsBatchStep t isMine exitOk s)

/-- `GetSecondsUntilNextPoll` (src/poller/poller.go lines 225-257), with
instants and the polling interval in integer nanoseconds.  The function is
evaluated at monotonic instants `now ≥ tickerStart`; `int(remaining.Seconds())`
truncates to whole seconds. -/
def getSecondsUntilNextPoll (tickerStart now interval : Nat) : Nat :=
  if tickerStart = 0 then 0
  else if tickerStart + ((now - tickerStart) / interval + 1) * interval < now
    then 0
  else
    (tickerStart + ((now - tickerStart) / interval + 1) * interval - now) /
      nsPerSecond

/-- The seconds-until-next-tick value as the spec words it:
`(ceil((now − T0) / P)) * P − (now − T0)` clamped at 0 (natural-number
subtraction clamps), reported in whole seconds. -/
def specSecondsUntilNextTick (tickerStart now interval : Nat) : Nat :=
  ((now - tickerStart + interval - 1) / interval * interval -
    (now - tickerStart)) / nsPerSecond

/-- A PR summary as returned by the remote searches (`github.PullRequest`,
src/github/client.go line 32), restricted to the fields the poll loop reads. -/
structure SummaryPR where
  owner : String
  repo : String
  number : Nat
  commitSHA : String
  title : String
  author : String
  createdAt : Int
  draft : Bool
deriving DecidableEq, Repr

/-- Per-PR review data derived from the batched GraphQL response
(`PRReviewData`, src/github/client.go line 45). -/
structure PRReviewData where
  approvalCount : Nat
  myReviewStatus : String
deriving DecidableEq, Repr

/-- The `"owner/repo/number"` map key (`fmt.Sprintf("%s/%s/%d", ...)`),
modelled as the identity triple. -/
def prKeyOf (pr : SummaryPR) : String × String × Nat :=
  (pr.owner, pr.repo, pr.number)

/-- The `"owner/repo"` grouping key, modelled as the pair. -/
def repoKeyOf (owner repo : String) : String × String := (owner, repo)

/-- The identity triple of a stored row. -/
def rowIdOf (r : PRRow) : String × String × Nat :=
  (r.repoOwner, r.repoName, r.prNumber)

/-- `BatchGetPRReviewData` (src/github/client.go line 330): group the PRs by
repository; each repository is fetched with one query which either fails as a
whole (rate-limited or any other error — that repository is skipped and
contributes no keys) or yields derived review data for each of its PRs.  The
remote is abstracted by `repoOk` (did the repository query succeed) and
`remoteData` (the data derived from the reviews the remote returned). -/
def batchGetPRReviewData (prs : List SummaryPR)
    (repoOk : String × String → Bool)
    (remoteData : SummaryPR → PRReviewData) :
    List ((String × String × Nat) × PRReviewData) :=
  (prs.filter fun pr => repoOk (repoKeyOf pr.owner pr.repo)).map
    fun pr => (prKeyOf pr, remoteData pr)

/-- One iteration of the review-data update loop in `poll`
(src/poller/poller.go lines 692-724): if the batched results contain this
PR's key and its row exists, upsert the fetched `approval_count` and
`my_review_status` together with the summary's `draft` and `created_at`,
passing every other column through from the existing row. -/
def applyOneReviewUpdate
    (results : List ((String × String × Nat) × PRReviewData))
    (st : List PRRow) (pr : SummaryPR) : List PRRow :=
  match results.lookup (prKeyOf pr) with
  | none => st
  | some data =>
      match getPR st pr.owner pr.repo pr.number with
      | none => st
      | some existing =>
          upsertPR st pr.owner pr.repo pr.number existing.lastCommitSHA
            existing.reviewHTMLPath existing.status existing.title
            existing.author existing.isMine data.approvalCount
            data.myReviewStatus pr.createdAt pr.draft

/-- The review-data update step of a pass (src/poller/poller.go lines
684-727): fold the update over the union list. -/
def applyBatchReviewData (store : List PRRow) (union : List SummaryPR)
    (results : List ((String × String × Nat) × PRReviewData)) : List PRRow :=
  union.foldl (applyOneReviewUpdate results) store

/-- The `github.PullRequest` literal built from a stored row when the remote
searches no longer surface it (src/poller/poller.go lines 669-677): only
`Owner`, `Repo`, `Number`, `CommitSHA`, `Title`, `Author`, `URL` are set;
`CreatedAt` and `Draft` keep their Go zero values. -/
def summaryOfRow (r : PRRow) : SummaryPR :=
  { owner := r.repoOwner, repo := r.repoName, number := r.prNumber,
    commitSHA := r.lastCommitSHA, title := r.title, author := r.author,
    createdAt := 0, draft := false }

/-- The union construction of `poll` (src/poller/poller.go lines 643-681):
the two search results, followed by every stored row whose identity the
searches did not surface. -/
def buildUnion (reviewPRs myPRs : List SummaryPR) (store : List PRRow) :
    List SummaryPR :=
  let allPRs := reviewPRs ++ myPRs
  let keys := allPRs.map prKeyOf
  allPRs ++
    ((store.filter fun r => !(keys.contains (rowIdOf r))).map summaryOfRow)

/-- The rows that the reset-stale-generating claim describes: status GENERATING
with `generating_since` null or earlier than the cutoff `now − t`. -/
def specStaleClaim (cutoff : Int) (r : PRRow) : Prop :=
  r.status = "generating" ∧
    (r.generatingSince = none ∨ ∃ t, r.generatingSince = some t ∧ t < cutoff)

/-- The rows that the reset-error claim describes: status ERROR with
`last_reviewed_at` null or earlier than the cutoff `now − max_age`. -/
def specErrorClaim (cutoff : Int) (r : PRRow) : Prop :=
  r.status = "error" ∧
    (r.lastReviewedAt = none ∨ ∃ t, r.lastReviewedAt = some t ∧ t < cutoff)

instance specStaleClaimDecidable (cutoff : Int) (r : PRRow) :
    Decidable (specStaleClaim cutoff r) :=
  match hg : r.generatingSince with
  | none =>
      decidable_of_iff (r.status = "generating")
        (by unfold specStaleClaim; simp [hg])
  | some t =>
      decidable_of_iff (r.status = "generating" ∧ t < cutoff)
        (by unfold specStaleClaim; simp [hg])

instance specErrorClaimDecidable (cutoff : Int) (r : PRRow) :
    Decidable (specErrorClaim cutoff r) :=
  match hg : r.lastReviewedAt with
  | none =>
      decidable_of_iff (r.status = "error")
        (by unfold specErrorClaim; simp [hg])
  | some t =>
      decidable_of_iff (r.status = "error" ∧ t < cutoff)
        (by unfold specErrorClaim; simp [hg])

/-- A neutral concrete row used by the concrete evaluations below. -/
def baseRow : PRRow :=
  { repoOwner := "acme", repoName := "foo", prNumber := 7,
    lastCommitSHA := "B", lastReviewedAt := none, reviewHTMLPath := "",
    status := "pending", generatingSince := none, isMine := false,
    title := "Add X", author := "alice", approvalCount := 0,
    myReviewStatus := "", createdAt := none, draft := false, notes := [],
    ciState := "unknown", ciFailedChecks := "[]" }

/-- A generator task for acme/foo#7 spawned at commit `A`. -/
def taskA : GenTask :=
  { owner := "acme", repo := "foo", number := 7, commitSHA := "A",
    title := "Add X", author := "alice", createdAt := 0, draft := false }

/-- A stored completed draft PR that the remote searches no longer surface. -/
def rowDraftTrue : PRRow :=
  { baseRow with status := "completed", reviewHTMLPath := "acme_foo_7.html",
                 lastReviewedAt := some 10, createdAt := some 5,
                 approvalCount := 1, draft := true }

/-- Concrete review data returned by a successful repository fetch. -/
def remoteDataEx : SummaryPR → PRReviewData :=
  fun _ => { approvalCount := 2, myReviewStatus := "APPROVED" }

/-- An ERROR row whose `last_reviewed_at` sits exactly on the reset cutoff. -/
def rowErrBoundary : PRRow :=
  { baseRow with status := "error", lastReviewedAt := some 60000000000 }

/-- A GENERATING row whose `generating_since` is newer than the stale cutoff. -/
def rowGenFresh : PRRow :=
  { baseRow with status := "generating", generatingSince := some 70000000000 }

/-- An ERROR row whose `last_reviewed_at` is newer than the reset cutoff. -/
def rowErrFresh : PRRow :=
  { baseRow with status := "error", lastReviewedAt := some 70000000000 }

/-- A stored row in repository acme/foo, used by the batched-review-data
examples. -/
def rowRepoA : PRRow :=
  { baseRow with approvalCount := 1, myReviewStatus := "COMMENTED" }

/-- A stored row in repository beta/bar, used by the batched-review-data
examples. -/
def rowRepoB : PRRow :=
  { baseRow with repoOwner := "beta", repoName := "bar", prNumber := 3,
                 lastCommitSHA := "D", approvalCount := 4,
                 myReviewStatus := "CHANGES_REQUESTED" }

/-- The remote summary for acme/foo#7 as surfaced by the searches. -/
def summaryRepoA : SummaryPR :=
  { owner := "acme", repo := "foo", number := 7, commitSHA := "B",
    title := "Add X", author := "alice", createdAt := 5, draft := false }

/-- The remote summary for beta/bar#3 as surfaced by the searches. -/
def summaryRepoB : SummaryPR :=
  { owner := "beta", repo := "bar", number := 3, commitSHA := "D",
    title := "Add Y", author := "bob", createdAt := 6, draft := false }

/-- A repository outcome where acme/foo succeeded and beta/bar was
rate-limited. -/
def repoOkEx : String × String → Bool :=
  fun k => k.1 == "acme"

/-! ### Helper lemmas -/

/-- Unfolding of the identity WHERE clause into propositional equalities. -/
theorem matchesId_iff (r : PRRow) (owner repo : String) (n : Nat) :
    r.matchesId owner repo n = true ↔
      r.repoOwner = owner ∧ r.repoName = repo ∧ r.prNumber = n := by
  simp [PRRow.matchesId, and_assoc]

/-- A row returned by `getPR` matches the requested identity. -/
theorem getPR_some_matches {store : List PRRow} {owner repo : String}
    {n : Nat} {r : PRRow} (h : getPR store owner repo n = some r) :
    r.matchesId owner repo n = true := by
  induction store with
  | nil => simp [getPR] at h
  | cons a l ih =>
      rw [getPR, List.find?_cons] at h
      by_cases hx : a.matchesId owner repo n = true
      · simp [hx] at h
        subst h
        exact hx
      · simp [hx] at h
        exact ih h

/-- `getPR` commutes with a row transformation that leaves the identity
columns of every row untouched. -/
theorem getPR_map_of_preserve (store : List PRRow) (owner repo : String)
    (n : Nat) (h : PRRow → PRRow)
    (hpres : ∀ r, (h r).matchesId owner repo n = r.matchesId owner repo n) :
    getPR (store.map h) owner repo n = (getPR store owner repo n).map h := by
  induction store with
  | nil => rfl
  | cons a l ih =>
      simp only [List.map_cons, getPR, List.find?_cons] at ih ⊢
      rw [hpres a]
      cases hx : a.matchesId owner repo n
      · simpa using ih
      · rfl

/-- The SQL CASE rank is the spec's tie-break position shifted by one. -/
theorem statusRank_eq (s : String) : statusRank s = specStatusPos s + 1 := by
  unfold statusRank specStatusPos
  by_cases h1 : s = "generating" <;> by_cases h2 : s = "pending" <;>
    by_cases h3 : s = "completed" <;> simp [h1, h2, h3]

/-! ### C1 / C2: completion handling of a generator task -/

/-- C1: within `generateReviewsBatch` alone the claim holds — on a clean exit
with the file present but a changed stored `head_sha`, the artifact is
deleted and the store is left untouched. -/
theorem generateReviewsBatchStep_stale_success_discards :
    generateReviewsBatchStep taskA false true
        { store := [baseRow], artifactExists := true } =
      { store := [baseRow], artifactExists := false } := by decide

/-- C2: within `generateReviewsBatch` alone the claim holds — on a failed exit
with the row already PENDING at a different `head_sha`, the row is left
untouched. -/
theorem generateReviewsBatchStep_cancelled_failure_leaves_row :
    generateReviewsBatchStep taskA false false
        { store := [baseRow], artifactExists := false } =
      { store := [baseRow], artifactExists := false } := by decide

/-- C1: a task spawned at commit `A` exits 0 with its output file present
while the store row (acme/foo#7) meanwhile carries `head_sha = B`.  The
artifact is deleted as the claim states, but the enclosing `processPRBatch`
file-existence check then overwrites the row's status with ERROR instead of
leaving it unchanged. -/
theorem c1_stale_success_sets_error :
    processTaskResult taskA false true
        { store := [baseRow], artifactExists := true } =
      { store := [{ baseRow with status := "error" }],
        artifactExists := false } ∧
    baseRow.status = "pending" ∧ baseRow.lastCommitSHA ≠ taskA.commitSHA := by
  decide

/-- C2: a task spawned at commit `A` exits non-zero with no output file while
the store row (acme/foo#7) is already PENDING with `head_sha = B`.
`generateReviewsBatch` honours the carve-out and leaves the row alone, but
the enclosing `processPRBatch` file-existence check then sets the row's
status to ERROR instead of leaving it unchanged. -/
theorem c2_cancelled_failure_sets_error :
    processTaskResult taskA false false
        { store := [baseRow], artifactExists := false } =
      { store := [{ baseRow with status := "error" }],
        artifactExists := false } ∧
    baseRow.status = "pending" ∧ baseRow.lastCommitSHA ≠ taskA.commitSHA := by
  decide

/-! ### C9: draft refresh in the batched review-data step -/

/-- C9: a stored draft PR (draft = true) that the remote searches no longer
surface enters the union through the store-rehydration literal, whose `Draft`
field keeps the Go zero value `false`.  When the batched review fetch
succeeds, the update step writes that default `false` into the draft column —
not the current remote draft value. -/
theorem c9_draft_overwritten_with_default :
    applyBatchReviewData [rowDraftTrue] (buildUnion [] [] [rowDraftTrue])
        (batchGetPRReviewData (buildUnion [] [] [rowDraftTrue])
          (fun _ => true) remoteDataEx) =
      [{ rowDraftTrue with approvalCount := 2, myReviewStatus := "APPROVED",
                           draft := false }] ∧
    rowDraftTrue.draft = true ∧
    (summaryOfRow rowDraftTrue).draft = false := by decide

/-! ### C7: seconds until the next tick -/

/-- C7: at an instant where `now − T0` is an exact multiple of the period,
the code reports a full period (here 60 s) while the spec's ceiling formula
yields 0. -/
theorem c7_counterexample :
    getSecondsUntilNextPoll 1 60000000001 60000000000 = 60 ∧
    specSecondsUntilNextTick 1 60000000001 60000000000 = 0 ∧
    (60000000001 - 1) % 60000000000 = 0 := by decide

/-- C7 (amended): for `now ≥ T0` the reported value is
`(floor((now−T0)/P) + 1) * P − (now−T0)` truncated to whole seconds — which
coincides with the spec's ceiling formula whenever `now − T0` is not an exact
multiple of `P`, and yields a full period `P` (not 0) at exact multiples. -/
theorem getSecondsUntilNextPoll_eq (tickerStart now interval : Nat)
    (h0 : tickerStart ≠ 0) (hn : tickerStart ≤ now) (hi : 0 < interval) :
    getSecondsUntilNextPoll tickerStart now interval =
      (((now - tickerStart) / interval + 1) * interval - (now - tickerStart)) /
        nsPerSecond ∧
    (¬ interval ∣ (now - tickerStart) →
      ((now - tickerStart) / interval + 1) * interval - (now - tickerStart) =
        (now - tickerStart + interval - 1) / interval * interval -
          (now - tickerStart)) := by
  have hdm : (now - tickerStart) / interval * interval +
      (now - tickerStart) % interval = now - tickerStart :=
    Nat.div_add_mod' _ _
  have hmlt : (now - tickerStart) % interval < interval :=
    Nat.mod_lt _ hi
  have hmul : ((now - tickerStart) / interval + 1) * interval =
      (now - tickerStart) / interval * interval + interval := by ring
  constructor
  · unfold getSecondsUntilNextPoll
    rw [if_neg h0, if_neg (by omega)]
    congr 1
    omega
  · intro hnd
    have hr0 : (now - tickerStart) % interval ≠ 0 := fun h =>
      hnd (Nat.dvd_of_mod_eq_zero h)
    have key : (now - tickerStart + interval - 1) / interval =
        (now - tickerStart) / interval + 1 := by
      have he2 : now - tickerStart + interval - 1 =
          ((now - tickerStart) % interval - 1) +
            ((now - tickerStart) / interval + 1) * interval := by omega
      rw [he2, Nat.add_mul_div_right _ _ hi, Nat.div_eq_of_lt (by omega)]
      omega
    rw [key]

/-- Witness for the amended C7 theorem at `T0 = 1`, `now = 100`, `P = 60`. -/
theorem getSecondsUntilNextPoll_eq_witness :
    (getSecondsUntilNextPoll 1 100 60 =
      (((100 - 1) / 60 + 1) * 60 - (100 - 1)) / nsPerSecond) ∧
    (¬ (60 : Nat) ∣ (100 - 1) →
      ((100 - 1) / 60 + 1) * 60 - (100 - 1) =
        (100 - 1 + 60 - 1) / 60 * 60 - (100 - 1)) :=
  getSecondsUntilNextPoll_eq 1 100 60 (by decide) (by decide) (by decide)

/-! ### C10: error-row self-healing -/

/-- C10: an ERROR row whose `last_reviewed_at` equals `now − max_age` exactly
is left untouched by `ResetErrorPRs`, although it is not newer than
`now − max_age`; so "only rows newer than now − max_age are left untouched"
fails at the boundary. -/
theorem c10_counterexample :
    (resetErrorPRs [rowErrBoundary] 120000000000 1).1 = [rowErrBoundary] ∧
    rowErrBoundary.status = "error" ∧
    rowErrBoundary.lastReviewedAt = some 60000000000 ∧
    ¬ ((60000000000 : Int) > 120000000000 - 1 * nsPerMinute) := by decide

/-! ### C5 / C10: self-healing resets -/

/-- The SQL WHERE clause of `ResetStaleGeneratingPRs` decides exactly the
rows the claim describes. -/
theorem staleGenerating_iff (cutoff : Int) (r : PRRow) :
    staleGenerating cutoff r = true ↔ specStaleClaim cutoff r := by
  unfold staleGenerating specStaleClaim
  cases hg : r.generatingSince <;> simp [hg]

/-- The SQL WHERE clause of `ResetErrorPRs` decides exactly the rows the
(amended) claim describes. -/
theorem errorExpired_iff (cutoff : Int) (r : PRRow) :
    errorExpired cutoff r = true ↔ specErrorClaim cutoff r := by
  unfold errorExpired specErrorClaim
  cases hg : r.lastReviewedAt <;> simp [hg]

/-- C5: `reset_stale_generating` transitions exactly the GENERATING rows with
null or expired `generating_since` to PENDING, returns the number of such
rows, and afterwards no GENERATING row has `generating_since` older than the
cutoff. -/
theorem resetStaleGenerating_spec (store : List PRRow)
    (now timeoutMinutes : Int) :
    List.Forall₂ (fun old new =>
        (specStaleClaim (now - timeoutMinutes * nsPerMinute) old →
            new = { old with status := "pending", generatingSince := none }) ∧
        (¬ specStaleClaim (now - timeoutMinutes * nsPerMinute) old →
            new = old))
      store (resetStaleGeneratingPRs store now timeoutMinutes).1 ∧
    (resetStaleGeneratingPRs store now timeoutMinutes).2 =
      store.countP
        (fun r => decide (specStaleClaim (now - timeoutMinutes * nsPerMinute) r)) ∧
    ∀ r ∈ (resetStaleGeneratingPRs store now timeoutMinutes).1,
      r.status = "generating" → ∀ t, r.generatingSince = some t →
        ¬ t < now - timeoutMinutes * nsPerMinute := by
  refine ⟨?_, ?_, ?_⟩
  · rw [show (resetStaleGeneratingPRs store now timeoutMinutes).1 =
        store.map (fun r =>
          if staleGenerating (now - timeoutMinutes * nsPerMinute) r then
            { r with status := "pending", generatingSince := none }
          else r) from rfl]
    rw [List.forall₂_map_right_iff]
    rw [List.forall₂_same]
    intro r _
    constructor
    · intro hs
      rw [if_pos ((staleGenerating_iff _ r).2 hs)]
    · intro hs
      rw [if_neg (fun hb => hs ((staleGenerating_iff _ r).1 hb))]
  · rw [show (resetStaleGeneratingPRs store now timeoutMinutes).2 =
        (store.filter fun r =>
          staleGenerating (now - timeoutMinutes * nsPerMinute) r).length from rfl]
    rw [List.countP_eq_length_filter]
    congr 1
    apply List.filter_congr
    intro r _
    cases hb : staleGenerating (now - timeoutMinutes * nsPerMinute) r
    · have : ¬ specStaleClaim (now - timeoutMinutes * nsPerMinute) r :=
        fun hc => by rw [(staleGenerating_iff _ r).2 hc] at hb; cases hb
      simp [this]
    · have : specStaleClaim (now - timeoutMinutes * nsPerMinute) r :=
        (staleGenerating_iff _ r).1 hb
      simp [this]
  · intro r hr hst t htg
    rw [show (resetStaleGeneratingPRs store now timeoutMinutes).1 =
        store.map (fun r =>
          if staleGenerating (now - timeoutMinutes * nsPerMinute) r then
            { r with status := "pending", generatingSince := none }
          else r) from rfl] at hr
    rcases List.mem_map.1 hr with ⟨r0, _, rfl⟩
    by_cases hb : staleGenerating (now - timeoutMinutes * nsPerMinute) r0 = true
    · rw [if_pos hb] at hst
      exact absurd hst (show ¬ ("pending" : String) = "generating" by decide)
    · rw [if_neg hb] at hst htg
      intro hlt
      exact hb ((staleGenerating_iff _ r0).2 ⟨hst, Or.inr ⟨t, htg, hlt⟩⟩)

/-- Witness for C5 at a GENERATING row 70 s old with a 2-minute timeout at
`now = 180 s`: the row survives as GENERATING and is indeed not older than
the cutoff. -/
theorem resetStaleGenerating_spec_witness :
    ¬ (70000000000 : Int) < 180000000000 - 2 * nsPerMinute :=
  (resetStaleGenerating_spec [rowGenFresh] 180000000000 2).2.2 rowGenFresh
    (by decide) (by decide) 70000000000 (by decide)

/-- C10 (amended): `reset_error` transitions exactly the ERROR rows with null
or expired `last_reviewed_at` to PENDING (a null `last_reviewed_at` resets
immediately, regardless of the age bound), returns the number of such rows,
and every ERROR row left untouched has a non-null `last_reviewed_at` not
older than the cutoff. -/
theorem resetErrorPRs_spec (store : List PRRow) (now maxAgeMinutes : Int) :
    List.Forall₂ (fun old new =>
        (specErrorClaim (now - maxAgeMinutes * nsPerMinute) old →
            new = { old with status := "pending" }) ∧
        (¬ specErrorClaim (now - maxAgeMinutes * nsPerMinute) old →
            new = old))
      store (resetErrorPRs store now maxAgeMinutes).1 ∧
    (resetErrorPRs store now maxAgeMinutes).2 =
      store.countP
        (fun r => decide (specErrorClaim (now - maxAgeMinutes * nsPerMinute) r)) ∧
    ∀ r ∈ (resetErrorPRs store now maxAgeMinutes).1,
      r.status = "error" → ∃ t, r.lastReviewedAt = some t ∧
        ¬ t < now - maxAgeMinutes * nsPerMinute := by
  refine ⟨?_, ?_, ?_⟩
  · rw [show (resetErrorPRs store now maxAgeMinutes).1 =
        store.map (fun r =>
          if errorExpired (now - maxAgeMinutes * nsPerMinute) r then
            { r with status := "pending" }
          else r) from rfl]
    rw [List.forall₂_map_right_iff]
    rw [List.forall₂_same]
    intro r _
    constructor
    · intro hs
      rw [if_pos ((errorExpired_iff _ r).2 hs)]
    · intro hs
      rw [if_neg (fun hb => hs ((errorExpired_iff _ r).1 hb))]
  · rw [show (resetErrorPRs store now maxAgeMinutes).2 =
        (store.filter fun r =>
          errorExpired (now - maxAgeMinutes * nsPerMinute) r).length from rfl]
    rw [List.countP_eq_length_filter]
    congr 1
    apply List.filter_congr
    intro r _
    cases hb : errorExpired (now - maxAgeMinutes * nsPerMinute) r
    · have : ¬ specErrorClaim (now - maxAgeMinutes * nsPerMinute) r :=
        fun hc => by rw [(errorExpired_iff _ r).2 hc] at hb; cases hb
      simp [this]
    · have : specErrorClaim (now - maxAgeMinutes * nsPerMinute) r :=
        (errorExpired_iff _ r).1 hb
      simp [this]
  · intro r hr hst
    rw [show (resetErrorPRs store now maxAgeMinutes).1 =
        store.map (fun r =>
          if errorExpired (now - maxAgeMinutes * nsPerMinute) r then
            { r with status := "pending" }
          else r) from rfl] at hr
    rcases List.mem_map.1 hr with ⟨r0, _, rfl⟩
    by_cases hb : errorExpired (now - maxAgeMinutes * nsPerMinute) r0 = true
    · rw [if_pos hb] at hst
      exact absurd hst (show ¬ ("pending" : String) = "error" by decide)
    · rw [if_neg hb] at hst
      rw [if_neg hb]
      cases hg : r0.lastReviewedAt with
      | none =>
          exact absurd ((errorExpired_iff _ r0).2 ⟨hst, Or.inl hg⟩) hb
      | some t =>
          exact ⟨t, rfl, fun hlt =>
            hb ((errorExpired_iff _ r0).2 ⟨hst, Or.inr ⟨t, hg, hlt⟩⟩)⟩

/-- Witness for the amended C10 theorem at an ERROR row 70 s old with a
5-minute age bound at `now = 180 s`: the row survives as ERROR and its
`last_reviewed_at` is not older than the cutoff. -/
theorem resetErrorPRs_spec_witness :
    ∃ t, rowErrFresh.lastReviewedAt = some t ∧
      ¬ t < 180000000000 - 5 * nsPerMinute :=
  (resetErrorPRs_spec [rowErrFresh] 180000000000 5).2.2 rowErrFresh
    (by decide) (by decide)

/-! ### C6: reset_to_outdated frame effect -/

/-- C6: `reset_to_outdated(identity, new_head_sha)` sets status PENDING,
`head_sha` to the new value, clears `artifact_path`, `last_reviewed_at` and
`generating_since`, keeps every other column of that row, and leaves every
other row unchanged. -/
theorem resetPRToOutdated_spec (store : List PRRow) (owner repo : String)
    (n : Nat) (sha : String) :
    (∀ r0, getPR store owner repo n = some r0 →
      getPR (resetPRToOutdated store owner repo n sha) owner repo n = some
        { repoOwner := r0.repoOwner, repoName := r0.repoName,
          prNumber := r0.prNumber, lastCommitSHA := sha,
          lastReviewedAt := none, reviewHTMLPath := "", status := "pending",
          generatingSince := none, isMine := r0.isMine, title := r0.title,
          author := r0.author, approvalCount := r0.approvalCount,
          myReviewStatus := r0.myReviewStatus, createdAt := r0.createdAt,
          draft := r0.draft, notes := r0.notes, ciState := r0.ciState,
          ciFailedChecks := r0.ciFailedChecks }) ∧
    List.Forall₂ (fun old new => old.matchesId owner repo n = false → new = old)
      store (resetPRToOutdated store owner repo n sha) := by
  have hpres : ∀ r : PRRow,
      ((if r.matchesId owner repo n then
          ({ r with status := "pending", lastCommitSHA := sha,
                    reviewHTMLPath := "", lastReviewedAt := none,
                    generatingSince := none } : PRRow)
        else r).matchesId owner repo n) = r.matchesId owner repo n := by
    intro r
    by_cases h : r.matchesId owner repo n = true
    · rw [if_pos h]; rfl
    · rw [if_neg h]
  constructor
  · intro r0 h0
    rw [show resetPRToOutdated store owner repo n sha = store.map (fun r =>
        if r.matchesId owner repo n then
          { r with status := "pending", lastCommitSHA := sha,
                   reviewHTMLPath := "", lastReviewedAt := none,
                   generatingSince := none }
        else r) from rfl]
    rw [getPR_map_of_preserve store owner repo n _ hpres, h0, Option.map_some']
    rw [if_pos (getPR_some_matches h0)]
  · rw [show resetPRToOutdated store owner repo n sha = store.map (fun r =>
        if r.matchesId owner repo n then
          { r with status := "pending", lastCommitSHA := sha,
                   reviewHTMLPath := "", lastReviewedAt := none,
                   generatingSince := none }
        else r) from rfl]
    rw [List.forall₂_map_right_iff, List.forall₂_same]
    intro r _ hm
    rw [if_neg (by rw [hm]; exact Bool.false_ne_true)]

/-- Witness for C6 at a concrete one-row store. -/
theorem resetPRToOutdated_spec_witness :
    getPR (resetPRToOutdated [baseRow] "acme" "foo" 7 "C") "acme" "foo" 7 =
      some { repoOwner := baseRow.repoOwner, repoName := baseRow.repoName,
             prNumber := baseRow.prNumber, lastCommitSHA := "C",
             lastReviewedAt := none, reviewHTMLPath := "",
             status := "pending", generatingSince := none,
             isMine := baseRow.isMine, title := baseRow.title,
             author := baseRow.author, approvalCount := baseRow.approvalCount,
             myReviewStatus := baseRow.myReviewStatus,
             createdAt := baseRow.createdAt, draft := baseRow.draft,
             notes := baseRow.notes, ciState := baseRow.ciState,
             ciFailedChecks := baseRow.ciFailedChecks } :=
  (resetPRToOutdated_spec [baseRow] "acme" "foo" 7 "C").1 baseRow (by decide)

/-! ### C4: list_all ordering -/

/-- The SQL ORDER BY comparison implies the ordering relation the spec
describes. -/
theorem rowLE_implies_spec {a b : PRRow} (h : rowLE a b) : specListAllLE a b := by
  have hsa := statusRank_eq a.status
  have hsb := statusRank_eq b.status
  unfold rowLE lex4 rowKey at h
  unfold specListAllLE
  cases ha : a.isMine <;> cases hb : b.isMine <;>
    cases hca : a.createdAt <;> cases hcb : b.createdAt <;>
      rw [ha, hb, hca, hcb] at h <;> simp_all <;> omega

/-- C4: `list_all` returns exactly the stored rows (a permutation), sorted by
`is_mine` false-first, then `created_at` descending with nulls last, then the
status tie-break GENERATING, PENDING, COMPLETED, other; being a pure function
of the stored rows, the result is deterministic. -/
theorem getAllPRs_spec (store : List PRRow) :
    (getAllPRs store).Perm store ∧ (getAllPRs store).Sorted specListAllLE := by
  constructor
  · exact List.perm_insertionSort rowLE store
  · exact List.Pairwise.imp (fun h => rowLE_implies_spec h)
      (List.sorted_insertionSort rowLE store)

/-! ### C3: notes mutation -/

/-- C3: a notes value longer than 15 bytes is rejected with a client error
(no store output, so the stored row is unchanged); an accepted request
produces a store in which only the notes column of the addressed row changed,
to the requested value, within the 15-byte bound; all other rows are
unchanged. -/
theorem handleUpdateNotes_spec (store : List PRRow) (owner repo : String)
    (n : Nat) (notes : List Nat) :
    (15 < notes.length →
      ∃ msg, handleUpdateNotes store owner repo n notes = Except.error msg) ∧
    (notes.length ≤ 15 →
      ∃ store2, handleUpdateNotes store owner repo n notes = Except.ok store2) ∧
    (∀ store2, handleUpdateNotes store owner repo n notes = Except.ok store2 →
      List.Forall₂ (fun old new =>
        (old.matchesId owner repo n = false → new = old) ∧
        (old.matchesId owner repo n = true →
          new.notes = notes ∧ new.notes.length ≤ 15 ∧
          new.repoOwner = old.repoOwner ∧ new.repoName = old.repoName ∧
          new.prNumber = old.prNumber ∧ new.lastCommitSHA = old.lastCommitSHA ∧
          new.lastReviewedAt = old.lastReviewedAt ∧
          new.reviewHTMLPath = old.reviewHTMLPath ∧ new.status = old.status ∧
          new.generatingSince = old.generatingSince ∧ new.isMine = old.isMine ∧
          new.title = old.title ∧ new.author = old.author ∧
          new.approvalCount = old.approvalCount ∧
          new.myReviewStatus = old.myReviewStatus ∧
          new.createdAt = old.createdAt ∧ new.draft = old.draft ∧
          new.ciState = old.ciState ∧ new.ciFailedChecks = old.ciFailedChecks))
        store store2) := by
  refine ⟨?_, ?_, ?_⟩
  · intro h
    exact ⟨_, by rw [handleUpdateNotes, if_pos h]⟩
  · intro h
    exact ⟨_, by rw [handleUpdateNotes, if_neg (by omega)]⟩
  · intro store2 h
    by_cases hlen : notes.length > 15
    · rw [handleUpdateNotes, if_pos hlen] at h
      cases h
    · rw [handleUpdateNotes, if_neg hlen] at h
      cases h
      rw [show updatePRNotes store owner repo n notes = store.map (fun r =>
          if r.matchesId owner repo n then
            { r with notes := if notes.length > 15 then notes.take 15 else notes }
          else r) from rfl]
      rw [List.forall₂_map_right_iff, List.forall₂_same]
      intro r _
      constructor
      · intro hm
        rw [if_neg (by rw [hm]; exact Bool.false_ne_true)]
      · intro hm
        rw [if_pos hm, if_neg hlen]
        exact ⟨rfl, show notes.length ≤ 15 by omega, rfl, rfl, rfl, rfl, rfl,
               rfl, rfl, rfl, rfl, rfl, rfl, rfl, rfl, rfl, rfl, rfl, rfl⟩

/-- Witness for C3: a 16-byte notes value is rejected, a 2-byte one is
accepted. -/
theorem handleUpdateNotes_spec_witness :
    (∃ msg, handleUpdateNotes [baseRow] "acme" "foo" 7
        [1, 2, 3, 4, 5, 6, 7, 8, 9, 10, 11, 12, 13, 14, 15, 16] =
      Except.error msg) ∧
    (∃ store2, handleUpdateNotes [baseRow] "acme" "foo" 7 [104, 105] =
      Except.ok store2) :=
  ⟨(handleUpdateNotes_spec [baseRow] "acme" "foo" 7
      [1, 2, 3, 4, 5, 6, 7, 8, 9, 10, 11, 12, 13, 14, 15, 16]).1 (by decide),
   (handleUpdateNotes_spec [baseRow] "acme" "foo" 7 [104, 105]).2.1 (by decide)⟩

/-! ### C8: rate-limited batched review fetch -/

/-- If a row matches one identity, it cannot match a different identity. -/
theorem matchesId_false_of_ne {r : PRRow} {o1 rp1 o2 rp2 : String}
    {n1 n2 : Nat} (h1 : r.matchesId o1 rp1 n1 = true)
    (hne : (o2, rp2, n2) ≠ (o1, rp1, n1)) :
    r.matchesId o2 rp2 n2 = false := by
  rcases (matchesId_iff r o1 rp1 n1).1 h1 with ⟨e1, e2, e3⟩
  subst e1; subst e2; subst e3
  cases hx : r.matchesId o2 rp2 n2
  · rfl
  · rcases (matchesId_iff r o2 rp2 n2).1 hx with ⟨f1, f2, f3⟩
    subst f1; subst f2; subst f3
    exact absurd rfl hne

/-- A key found in the keyed image of a list comes from a member of the
list. -/
theorem lookup_map_key {l : List SummaryPR} {rd : SummaryPR → PRReviewData}
    {k : String × String × Nat} {d : PRReviewData}
    (h : (l.map fun pr => (prKeyOf pr, rd pr)).lookup k = some d) :
    ∃ pr ∈ l, prKeyOf pr = k ∧ d = rd pr := by
  induction l with
  | nil => simp at h
  | cons a t ih =>
      rw [List.map_cons, List.lookup_cons] at h
      cases hk : k == prKeyOf a
      · rw [hk] at h
        obtain ⟨pr, hmem, hkey, hd⟩ := ih h
        exact ⟨pr, List.mem_cons_of_mem a hmem, hkey, hd⟩
      · rw [hk] at h
        cases h
        exact ⟨a, List.mem_cons_self a t, (eq_of_beq hk).symm, rfl⟩

/-- A key present in the batched results comes from a union member whose
repository query succeeded, and carries that member's derived data. -/
theorem lookup_batch_some {union : List SummaryPR}
    {repoOk : String × String → Bool} {remoteData : SummaryPR → PRReviewData}
    {k : String × String × Nat} {d : PRReviewData}
    (h : (batchGetPRReviewData union repoOk remoteData).lookup k = some d) :
    ∃ pr ∈ union, prKeyOf pr = k ∧
      repoOk (repoKeyOf pr.owner pr.repo) = true ∧ d = remoteData pr := by
  unfold batchGetPRReviewData at h
  obtain ⟨pr, hmem, hkey, hd⟩ := lookup_map_key h
  obtain ⟨hmem2, hok⟩ := List.mem_filter.1 hmem
  exact ⟨pr, hmem2, hkey, hok, hd⟩

/-- Under key-distinctness, the batched results map a successful union
member's key to exactly its derived data. -/
theorem lookup_batch_pairwise {union : List SummaryPR}
    {repoOk : String × String → Bool} {remoteData : SummaryPR → PRReviewData}
    {pr : SummaryPR}
    (hnd : union.Pairwise (fun a b => prKeyOf a ≠ prKeyOf b))
    (hmem : pr ∈ union) (hok : repoOk (repoKeyOf pr.owner pr.repo) = true) :
    (batchGetPRReviewData union repoOk remoteData).lookup (prKeyOf pr) =
      some (remoteData pr) := by
  unfold batchGetPRReviewData
  induction union with
  | nil => cases hmem
  | cons a t ih =>
      rw [List.filter_cons]
      rcases List.mem_cons.1 hmem with rfl | hm2
      · rw [if_pos hok, List.map_cons, List.lookup_cons]
        rw [show (prKeyOf pr == prKeyOf pr) = true from beq_self_eq_true _]
      · have hne : prKeyOf a ≠ prKeyOf pr :=
          (List.pairwise_cons.1 hnd).1 pr hm2
        have ht := ih (List.pairwise_cons.1 hnd).2 hm2
        by_cases hx : repoOk (repoKeyOf a.owner a.repo) = true
        · rw [if_pos hx, List.map_cons, List.lookup_cons]
          rw [show (prKeyOf pr == prKeyOf a) = false from
            beq_eq_false_iff_ne.2 (fun he => hne he.symm)]
          exact ht
        · rw [if_neg hx]
          exact ht

/-- When the lookup misses, the update step is the identity. -/
theorem applyOne_eq_of_lookup_none
    {results : List ((String × String × Nat) × PRReviewData)}
    {st : List PRRow} {pr : SummaryPR}
    (hl : results.lookup (prKeyOf pr) = none) :
    applyOneReviewUpdate results st pr = st := by
  unfold applyOneReviewUpdate
  rw [hl]

/-- When the row does not exist, the update step is the identity. -/
theorem applyOne_eq_of_getPR_none
    {results : List ((String × String × Nat) × PRReviewData)}
    {st : List PRRow} {pr : SummaryPR} {data : PRReviewData}
    (hl : results.lookup (prKeyOf pr) = some data)
    (hg : getPR st pr.owner pr.repo pr.number = none) :
    applyOneReviewUpdate results st pr = st := by
  unfold applyOneReviewUpdate
  rw [hl, hg]

/-- When the lookup hits and the row exists, the update step is the upsert of
the fetched review data over the existing row. -/
theorem applyOne_eq_some
    {results : List ((String × String × Nat) × PRReviewData)}
    {st : List PRRow} {pr : SummaryPR} {data : PRReviewData}
    {existing : PRRow}
    (hl : results.lookup (prKeyOf pr) = some data)
    (hg : getPR st pr.owner pr.repo pr.number = some existing) :
    applyOneReviewUpdate results st pr =
      upsertPR st pr.owner pr.repo pr.number existing.lastCommitSHA
        existing.reviewHTMLPath existing.status existing.title existing.author
        existing.isMine data.approvalCount data.myReviewStatus pr.createdAt
        pr.draft := by
  unfold applyOneReviewUpdate
  rw [hl, hg]

/-- On an existing row, the upsert is a per-row map. -/
theorem upsertPR_eq_map {st : List PRRow} {o rp : String} {m : Nat}
    (hs : (getPR st o rp m).isSome = true)
    (sha htmlPath status title author : String) (isMine : Bool)
    (approval : Nat) (myReview : String) (createdAt : Int) (draft : Bool) :
    upsertPR st o rp m sha htmlPath status title author isMine approval
        myReview createdAt draft =
      st.map (fun r =>
        if r.matchesId o rp m then
          { r with lastCommitSHA := sha, reviewHTMLPath := htmlPath,
                   status := status, generatingSince := none, isMine := isMine,
                   title := title, author := author, approvalCount := approval,
                   myReviewStatus := myReview,
                   createdAt := if createdAt = 0 then r.createdAt else some createdAt,
                   draft := draft }
        else r) := by
  unfold upsertPR
  rw [if_pos hs]

/-- A single update step leaves `getPR` at any other identity unchanged. -/
theorem applyOne_getPR_frame
    (results : List ((String × String × Nat) × PRReviewData))
    (st : List PRRow) (pr : SummaryPR) (o rp : String) (m : Nat)
    (hk : (o, rp, m) ≠ prKeyOf pr) :
    getPR (applyOneReviewUpdate results st pr) o rp m = getPR st o rp m := by
  cases hl : results.lookup (prKeyOf pr) with
  | none => rw [applyOne_eq_of_lookup_none hl]
  | some data =>
      cases hg : getPR st pr.owner pr.repo pr.number with
      | none => rw [applyOne_eq_of_getPR_none hl hg]
      | some existing =>
          rw [applyOne_eq_some hl hg,
              upsertPR_eq_map (by rw [hg]; rfl) existing.lastCommitSHA
                existing.reviewHTMLPath existing.status existing.title
                existing.author existing.isMine data.approvalCount
                data.myReviewStatus pr.createdAt pr.draft]
          rw [getPR_map_of_preserve st o rp m _ (by
            intro r
            by_cases hmm : r.matchesId pr.owner pr.repo pr.number = true
            · rw [if_pos hmm]; rfl
            · rw [if_neg hmm])]
          cases hg2 : getPR st o rp m with
          | none => rfl
          | some r0 =>
              rw [Option.map_some']
              have hfalse : r0.matchesId pr.owner pr.repo pr.number = false :=
                matchesId_false_of_ne (getPR_some_matches hg2) (Ne.symm hk)
              rw [if_neg (by rw [hfalse]; exact Bool.false_ne_true)]

/-- Folding the update over entries with other keys leaves `getPR` at this
identity unchanged. -/
theorem applyBatch_getPR_frame
    (results : List ((String × String × Nat) × PRReviewData)) :
    ∀ (rest : List SummaryPR) (st : List PRRow) (o rp : String) (m : Nat),
    (∀ pr ∈ rest, (o, rp, m) ≠ prKeyOf pr) →
    getPR (rest.foldl (applyOneReviewUpdate results) st) o rp m =
      getPR st o rp m := by
  intro rest
  induction rest with
  | nil => intro st o rp m _; rfl
  | cons a t ih =>
      intro st o rp m hne
      rw [List.foldl_cons]
      rw [ih _ o rp m (fun pr hp => hne pr (List.mem_cons_of_mem a hp))]
      exact applyOne_getPR_frame results st a o rp m (hne a (List.mem_cons_self a t))

/-- A successful update step rewrites the row's review data to the fetched
values. -/
theorem applyOne_getPR_update
    {results : List ((String × String × Nat) × PRReviewData)}
    {st : List PRRow} {pr : SummaryPR} {data : PRReviewData} {existing : PRRow}
    (hl : results.lookup (prKeyOf pr) = some data)
    (hg : getPR st pr.owner pr.repo pr.number = some existing) :
    ∃ r1, getPR (applyOneReviewUpdate results st pr) pr.owner pr.repo
        pr.number = some r1 ∧
      r1.approvalCount = data.approvalCount ∧
      r1.myReviewStatus = data.myReviewStatus := by
  rw [applyOne_eq_some hl hg,
      upsertPR_eq_map (by rw [hg]; rfl) existing.lastCommitSHA
        existing.reviewHTMLPath existing.status existing.title
        existing.author existing.isMine data.approvalCount
        data.myReviewStatus pr.createdAt pr.draft]
  rw [getPR_map_of_preserve st pr.owner pr.repo pr.number _ (by
    intro r
    by_cases hmm : r.matchesId pr.owner pr.repo pr.number = true
    · rw [if_pos hmm]; rfl
    · rw [if_neg hmm])]
  rw [hg, Option.map_some']
  rw [if_pos (getPR_some_matches hg)]
  exact ⟨_, rfl, rfl, rfl⟩

/-- Composition of two per-position conditional-preservation relations. -/
theorem forall2_pres_trans {α : Type} {C : α → Prop} :
    ∀ {a b c : List α}, List.Forall₂ (fun x y => C x → y = x) a b →
      List.Forall₂ (fun x y => C x → y = x) b c →
      List.Forall₂ (fun x y => C x → y = x) a c := by
  intro a b c h1
  induction h1 generalizing c with
  | nil =>
      intro h2
      cases h2
      exact List.Forall₂.nil
  | cons hp _ ih =>
      intro h2
      cases h2 with
      | cons hq hrest2 =>
          refine List.Forall₂.cons ?_ (ih hrest2)
          intro hc
          have hy := hp hc
          have hz := hq (by rw [hy]; exact hc)
          rw [hz, hy]

/-- One update step preserves every row whose repository query failed. -/
theorem applyOne_forall2 (union : List SummaryPR)
    (repoOk : String × String → Bool) (remoteData : SummaryPR → PRReviewData)
    (st : List PRRow) (pr : SummaryPR) :
    List.Forall₂ (fun old new =>
        repoOk (repoKeyOf old.repoOwner old.repoName) = false → new = old)
      st (applyOneReviewUpdate (batchGetPRReviewData union repoOk remoteData)
        st pr) := by
  cases hl : (batchGetPRReviewData union repoOk remoteData).lookup
      (prKeyOf pr) with
  | none =>
      rw [applyOne_eq_of_lookup_none hl]
      exact List.forall₂_same.2 (fun a _ _ => rfl)
  | some data =>
      cases hg : getPR st pr.owner pr.repo pr.number with
      | none =>
          rw [applyOne_eq_of_getPR_none hl hg]
          exact List.forall₂_same.2 (fun a _ _ => rfl)
      | some existing =>
          obtain ⟨q, _, hkey, hok, _⟩ := lookup_batch_some hl
          have hq1 : q.owner = pr.owner := congrArg (fun x => x.1) hkey
          have hq2 : q.repo = pr.repo :=
            congrArg (fun x => x.2.1) hkey
          have hok2 : repoOk (repoKeyOf pr.owner pr.repo) = true := by
            rw [← hq1, ← hq2]; exact hok
          rw [applyOne_eq_some hl hg,
              upsertPR_eq_map (by rw [hg]; rfl) existing.lastCommitSHA
                existing.reviewHTMLPath existing.status existing.title
                existing.author existing.isMine data.approvalCount
                data.myReviewStatus pr.createdAt pr.draft]
          rw [List.forall₂_map_right_iff, List.forall₂_same]
          intro r _ hfail
          by_cases hm : r.matchesId pr.owner pr.repo pr.number = true
          · rcases (matchesId_iff r pr.owner pr.repo pr.number).1 hm with
              ⟨e1, e2, _⟩
            rw [e1, e2, hok2] at hfail
            cases hfail
          · rw [if_neg hm]

/-- Folding the update preserves every row whose repository query failed. -/
theorem applyBatch_forall2 (union2 union : List SummaryPR)
    (repoOk : String × String → Bool)
    (remoteData : SummaryPR → PRReviewData) :
    ∀ st : List PRRow,
    List.Forall₂ (fun old new =>
        repoOk (repoKeyOf old.repoOwner old.repoName) = false → new = old)
      st (union2.foldl
        (applyOneReviewUpdate (batchGetPRReviewData union repoOk remoteData))
        st) := by
  induction union2 with
  | nil => intro st; exact List.forall₂_same.2 (fun a _ _ => rfl)
  | cons a t ih =>
      intro st
      rw [List.foldl_cons]
      exact forall2_pres_trans (applyOne_forall2 union repoOk remoteData st a)
        (ih _)

/-- The fold updates a union member's existing row with its fetched data. -/
theorem foldl_getPR_update
    (results : List ((String × String × Nat) × PRReviewData))
    (data : PRReviewData) (pr : SummaryPR) :
    ∀ (union : List SummaryPR), pr ∈ union →
    union.Pairwise (fun a b => prKeyOf a ≠ prKeyOf b) →
    results.lookup (prKeyOf pr) = some data →
    ∀ (store : List PRRow) (r0 : PRRow),
    getPR store pr.owner pr.repo pr.number = some r0 →
    ∃ r1, getPR (union.foldl (applyOneReviewUpdate results) store)
        pr.owner pr.repo pr.number = some r1 ∧
      r1.approvalCount = data.approvalCount ∧
      r1.myReviewStatus = data.myReviewStatus := by
  intro union
  induction union with
  | nil => intro h; cases h
  | cons a t ih =>
      intro hmem hnd hl store r0 hg
      rw [List.foldl_cons]
      rcases List.mem_cons.1 hmem with rfl | hm2
      · obtain ⟨r1, h1, ha, hm⟩ := applyOne_getPR_update hl hg
        have hfr : ∀ q ∈ t, (pr.owner, pr.repo, pr.number) ≠ prKeyOf q :=
          fun q hq => (List.pairwise_cons.1 hnd).1 q hq
        refine ⟨r1, ?_, ha, hm⟩
        rw [applyBatch_getPR_frame results t _ pr.owner pr.repo pr.number hfr]
        exact h1
      · have hne : (pr.owner, pr.repo, pr.number) ≠ prKeyOf a := by
          have h3 := (List.pairwise_cons.1 hnd).1 pr hm2
          exact fun he => h3 (Eq.symm he)
        have hg2 : getPR (applyOneReviewUpdate results store a)
            pr.owner pr.repo pr.number = some r0 := by
          rw [applyOne_getPR_frame results store a pr.owner pr.repo pr.number hne]
          exact hg
        exact ih hm2 (List.pairwise_cons.1 hnd).2 hl _ r0 hg2

/-- C8: when the batched review fetch fails (rate-limited or otherwise) for a
repository, every row of that repository comes out of the update step
unchanged; a union member of a repository whose fetch succeeded has its
existing row rewritten with the freshly derived `approval_count` and
`my_review_status`. -/
theorem batchReviewData_spec (store : List PRRow) (union : List SummaryPR)
    (repoOk : String × String → Bool) (remoteData : SummaryPR → PRReviewData)
    (hnd : union.Pairwise (fun a b => prKeyOf a ≠ prKeyOf b)) :
    List.Forall₂ (fun old new =>
        repoOk (repoKeyOf old.repoOwner old.repoName) = false → new = old)
      store (applyBatchReviewData store union
        (batchGetPRReviewData union repoOk remoteData)) ∧
    ∀ pr ∈ union, repoOk (repoKeyOf pr.owner pr.repo) = true →
      ∀ r0, getPR store pr.owner pr.repo pr.number = some r0 →
      ∃ r1, getPR (applyBatchReviewData store union
          (batchGetPRReviewData union repoOk remoteData))
          pr.owner pr.repo pr.number = some r1 ∧
        r1.approvalCount = (remoteData pr).approvalCount ∧
        r1.myReviewStatus = (remoteData pr).myReviewStatus := by
  constructor
  · exact applyBatch_forall2 union union repoOk remoteData store
  · intro pr hmem hok r0 hg
    exact foldl_getPR_update (batchGetPRReviewData union repoOk remoteData)
      (remoteData pr) pr union hmem hnd
      (lookup_batch_pairwise hnd hmem hok) store r0 hg

/-- Witness for C8: acme/foo succeeds (fresh values applied), beta/bar is
rate-limited (row untouched). -/
theorem batchReviewData_spec_witness :
    ∃ r1, getPR (applyBatchReviewData [rowRepoA, rowRepoB]
        [summaryRepoA, summaryRepoB]
        (batchGetPRReviewData [summaryRepoA, summaryRepoB] repoOkEx
          remoteDataEx)) "acme" "foo" 7 = some r1 ∧
      r1.approvalCount = (remoteDataEx summaryRepoA).approvalCount ∧
      r1.myReviewStatus = (remoteDataEx summaryRepoA).myReviewStatus :=
  (batchReviewData_spec [rowRepoA, rowRepoB] [summaryRepoA, summaryRepoB]
      repoOkEx remoteDataEx (by decide)).2 summaryRepoA (by decide) (by decide)
    rowRepoA (by decide)
